import Mathlib

/-!
Shallow embedding of `src/evaluation/eval.py` from the repository
`afaji/evaluation-robustness-consistency`.

The script is a linear pipeline: argument validation, model/tokenizer
loading, output-directory creation, and a sequential dispatch loop over
task names.  External effects (filesystem checks, the model hub, the task
registry, the clock) are modelled by an explicit environment `Env`; the
run produces a trace of `Event`s recording each effectful call in order,
together with an `Except` value modelling exception propagation.
-/

namespace Eval

/-- Embedding of the `EvaluationArguments` dataclass (eval.py lines 14-33). -/
structure EvaluationArguments where
  model_name_or_path : String
  eval_tasks : List String
  config_name : Option String := none
  tokenizer_name : Option String := none
  tag : Option String := none
  english_only : Bool := true
  data_dir : Option String := none
deriving DecidableEq

/-- The fields of the transformers `TrainingArguments` that eval.py reads:
`device`, `output_dir`, `seed`. -/
structure TrainingArguments where
  device : String
  output_dir : String
  seed : Nat
deriving DecidableEq

/-- Model family selected by the hard-coded allowlist (eval.py lines 66-69). -/
inductive ModelType where
  | seq2seq
  | causal
deriving DecidableEq

/-- Tokenizer state.  `AutoTokenizer.from_pretrained` yields a tokenizer with
an eos token and no pad token; eval.py then mutates `pad_token` and
`padding_side`.  Setting `pad_token` to an existing token makes
`pad_token_id` follow it (transformers semantics), and `length` is
`len(tokenizer)`, the vocabulary size. -/
structure Tokenizer where
  name : String
  eos_token : String
  eos_token_id : Int
  pad_token : Option String
  pad_token_id : Option Int
  padding_side : String
  length : Nat
deriving DecidableEq

/-- Model state.  `config_pad_token_id` holds either the raw value passed as
`pad_token_id=` to `from_pretrained` (a token string in eval.py line 72) or
an integer id assigned afterwards (line 74). -/
structure Model where
  name : String
  model_type : ModelType
  config_eos_token_id : Int
  config_pad_token_id : Option (String ⊕ Int)
  embedding_size : Nat
  device : Option String
deriving DecidableEq

/-- One effectful call made by the run, recorded in order. -/
inductive Event where
  | loadTokenizer (name : String)
  | loadModel (ty : ModelType) (name : String)
  | makedirs (path : String)
  | resolveTask (name : String) (model : Model) (tokenizer : Tokenizer)
      (device : String) (english_only : Bool) (data_dir : Option String)
  | setSeed (seed : Nat)
  | evaluateTask (name : String)
  | saveMetrics (name : String) (output_dir : String)
deriving DecidableEq

/-- Exceptions that can propagate out of `main`. -/
inductive RunError where
  | valueError (msg : String)
  | osError (msg : String)
  | taskResolveError (task : String)
  | taskEvaluateError (task : String)
  | taskSaveError (task : String)
deriving DecidableEq

/-- Environment supplying the results of all external effects: the
filesystem, the clock, the model hub, and the per-task success of the
registry lookup, `evaluate()` and `save_metrics()`. -/
structure Env where
  fs_exists : String → Bool
  now_tag : String
  tok_eos_token : String → String
  tok_eos_token_id : String → Int
  tok_len : String → Nat
  model_eos_token_id : String → Int
  model_embedding_size : String → Nat
  resolve_ok : String → Bool
  evaluate_ok : String → Bool
  save_ok : String → Bool

/-- Python truthiness of `a or b` for an optional string: `None` and the
empty string are falsy. -/
def py_or_str (a : Option String) (b : String) : String :=
  match a with
  | none => b
  | some s => if s = "" then b else s

/-- `os.path.join a b` restricted to the two-argument form eval.py uses:
an absolute second component replaces the first, and exactly one slash
separates the two components otherwise. -/
def os_path_join (a b : String) : String :=
  if b.data.head? = some '/' then b
  else if a = "" then b
  else if a.data.getLast? = some '/' then a ++ b
  else a ++ "/" ++ b

/-- `os.makedirs path exist_ok`: raises `FileExistsError` only when the path
exists and `exist_ok` is false. -/
def os_makedirs (path : String) (exist_ok : Bool) (fs_exists : String → Bool) :
    Except RunError Unit :=
  if fs_exists path && !exist_ok then
    Except.error (RunError.osError "FileExistsError")
  else
    Except.ok ()

/-- The task name whose data directory is validated (eval.py line 43). -/
def jigsawTask : String := "jigsaw_toxicity_pred"

/-- Validation block, eval.py lines 40-53. -/
def validateArgs (eval_args : EvaluationArguments) (fs_exists : String → Bool) :
    Except RunError Unit :=
  if eval_args.eval_tasks.isEmpty then
    Except.error (RunError.valueError "Must provide at least one eval task!")
  else if jigsawTask ∈ eval_args.eval_tasks then
    match eval_args.data_dir with
    | none =>
        Except.error (RunError.valueError
          "Must provide data path for jigsaw_toxicity_pred. Data needs to be downloaded manually from Kaggle and saved into a local directory.")
    | some d =>
        if fs_exists d then Except.ok ()
        else
          Except.error (RunError.valueError
            "Data path for jigsaw_toxicity_pred does not exist. Data needs to be downloaded manually from Kaggle and saved into a local directory.")
  else
    Except.ok ()

/-- Hard-coded sequence-to-sequence allowlist (eval.py line 66). -/
def seq2seq_allowlist : List String := ["bigscience/T0_3B", "bigscience/T0"]

/-- Result of the model/tokenizer loading block. -/
structure LoadResult where
  tokenizer : Tokenizer
  model : Model
  events : List Event
deriving DecidableEq

/-- Model/tokenizer loading, eval.py lines 63-76, in source order:
load tokenizer (with the `tokenizer_name or model_name_or_path` fallback),
set its pad token to its eos token, set padding side to left, pick the
model family from the allowlist, load the model passing
`pad_token_id=tokenizer.eos_token`, overwrite the model's pad token id
with the model's own `eos_token_id`, resize embeddings to
`len(tokenizer)`, and move the model to the device. -/
def loadModelAndTokenizer (eval_args : EvaluationArguments) (device : String)
    (env : Env) : LoadResult :=
  let tok_name := py_or_str eval_args.tokenizer_name eval_args.model_name_or_path
  let tokenizer0 : Tokenizer :=
    { name := tok_name
      eos_token := env.tok_eos_token tok_name
      eos_token_id := env.tok_eos_token_id tok_name
      pad_token := none
      pad_token_id := none
      padding_side := "right"
      length := env.tok_len tok_name }
  let tokenizer : Tokenizer :=
    { tokenizer0 with
      pad_token := some tokenizer0.eos_token
      pad_token_id := some tokenizer0.eos_token_id
      padding_side := "left" }
  let mt : ModelType :=
    if eval_args.model_name_or_path ∈ seq2seq_allowlist then ModelType.seq2seq
    else ModelType.causal
  let model0 : Model :=
    { name := eval_args.model_name_or_path
      model_type := mt
      config_eos_token_id := env.model_eos_token_id eval_args.model_name_or_path
      config_pad_token_id := some (Sum.inl tokenizer.eos_token)
      embedding_size := env.model_embedding_size eval_args.model_name_or_path
      device := none }
  let model1 : Model :=
    { model0 with config_pad_token_id := some (Sum.inr model0.config_eos_token_id) }
  let model2 : Model := { model1 with embedding_size := tokenizer.length }
  let model3 : Model := { model2 with device := some device }
  { tokenizer := tokenizer
    model := model3
    events := [Event.loadTokenizer tok_name,
               Event.loadModel mt eval_args.model_name_or_path] }

/-- Shared context threaded through the dispatch loop. -/
structure DispatchCtx where
  model : Model
  tokenizer : Tokenizer
  device : String
  seed : Nat
  english_only : Bool
  data_dir : Option String
  output_dir : String

/-- The four events of one fully successful loop iteration
(eval.py lines 85-95). -/
def taskEvents (ctx : DispatchCtx) (t : String) : List Event :=
  [Event.resolveTask t ctx.model ctx.tokenizer ctx.device ctx.english_only ctx.data_dir,
   Event.setSeed ctx.seed,
   Event.evaluateTask t,
   Event.saveMetrics t ctx.output_dir]

/-- One loop iteration: registry lookup, `set_seed`, `evaluate`,
`save_metrics`, stopping at the first call the environment fails. -/
def runTask (env : Env) (ctx : DispatchCtx) (t : String) :
    List Event × Except RunError Unit :=
  if env.resolve_ok t = false then
    ([Event.resolveTask t ctx.model ctx.tokenizer ctx.device ctx.english_only ctx.data_dir],
     Except.error (RunError.taskResolveError t))
  else if env.evaluate_ok t = false then
    ([Event.resolveTask t ctx.model ctx.tokenizer ctx.device ctx.english_only ctx.data_dir,
      Event.setSeed ctx.seed,
      Event.evaluateTask t],
     Except.error (RunError.taskEvaluateError t))
  else if env.save_ok t = false then
    (taskEvents ctx t, Except.error (RunError.taskSaveError t))
  else
    (taskEvents ctx t, Except.ok ())

/-- The dispatch loop over the task list: strictly sequential, aborting at
the first exception with no recovery (eval.py lines 85-95). -/
def runTasks (env : Env) (ctx : DispatchCtx) :
    List String → List Event × Except RunError Unit
  | [] => ([], Except.ok ())
  | t :: ts =>
    match runTask env ctx t with
    | (evs, Except.error e) => (evs, Except.error e)
    | (evs, Except.ok _) =>
      (evs ++ (runTasks env ctx ts).1, (runTasks env ctx ts).2)

/-- The run tag: the `tag` argument if truthy, else the timestamp
(eval.py line 79). -/
def resolvedTag (eval_args : EvaluationArguments) (env : Env) : String :=
  py_or_str eval_args.tag env.now_tag

/-- The per-run output directory (eval.py line 80). -/
def outputDir (eval_args : EvaluationArguments) (train_args : TrainingArguments)
    (env : Env) : String :=
  os_path_join train_args.output_dir (resolvedTag eval_args env)

/-- Result of a fully successful run. -/
structure RunResult where
  tokenizer : Tokenizer
  model : Model
  output_dir : String
deriving DecidableEq

/-- The context handed to each loop iteration: the shared model, tokenizer
and device from the loading block, the configured seed, the flags, and the
shared output directory (eval.py lines 85-95). -/
def mainCtx (eval_args : EvaluationArguments) (train_args : TrainingArguments)
    (env : Env) : DispatchCtx :=
  { model := (loadModelAndTokenizer eval_args train_args.device env).model
    tokenizer := (loadModelAndTokenizer eval_args train_args.device env).tokenizer
    device := train_args.device
    seed := train_args.seed
    english_only := eval_args.english_only
    data_dir := eval_args.data_dir
    output_dir := outputDir eval_args train_args env }

/-- The whole `main()` of eval.py: validation, loading, output-directory
creation, dispatch loop.  Returns the ordered trace of effectful calls
together with either the propagated exception or the final state. -/
def main (eval_args : EvaluationArguments) (train_args : TrainingArguments)
    (env : Env) : List Event × Except RunError RunResult :=
  match validateArgs eval_args env.fs_exists with
  | Except.error e => ([], Except.error e)
  | Except.ok _ =>
    let lr := loadModelAndTokenizer eval_args train_args.device env
    let out := outputDir eval_args train_args env
    match os_makedirs out true env.fs_exists with
    | Except.error e => (lr.events ++ [Event.makedirs out], Except.error e)
    | Except.ok _ =>
      match runTasks env (mainCtx eval_args train_args env) eval_args.eval_tasks with
      | (tevs, Except.error e) =>
        (lr.events ++ [Event.makedirs out] ++ tevs, Except.error e)
      | (tevs, Except.ok _) =>
        (lr.events ++ [Event.makedirs out] ++ tevs,
         Except.ok { tokenizer := lr.tokenizer, model := lr.model, output_dir := out })

/-! ### Concrete instances used by witnesses and counterexamples -/

/-- A concrete run configuration. -/
def taA : TrainingArguments := { device := "cpu", output_dir := "/tmp/out", seed := 42 }

/-- A concrete environment in which every external call succeeds and no
path exists on disk. -/
def envA : Env :=
  { fs_exists := fun _ => false
    now_tag := "250101_000000"
    tok_eos_token := fun _ => "</s>"
    tok_eos_token_id := fun _ => 2
    tok_len := fun _ => 32000
    model_eos_token_id := fun _ => 2
    model_embedding_size := fun _ => 32000
    resolve_ok := fun _ => true
    evaluate_ok := fun _ => true
    save_ok := fun _ => true }

/-- A configuration with an empty task list. -/
def eaEmpty : EvaluationArguments := { model_name_or_path := "gpt2", eval_tasks := [] }

/-- A configuration requesting the jigsaw task with no data directory. -/
def eaJigsaw : EvaluationArguments :=
  { model_name_or_path := "gpt2", eval_tasks := ["jigsaw_toxicity_pred"] }

/-! ### Claim theorems -/

/-- C1: for every configuration whose `eval_tasks` list is empty, the run
raises a fatal validation error (`ValueError`, the ConfigurationError of
the spec) and the trace is empty, so no model or tokenizer loading is
attempted. -/
theorem empty_tasks_fails (ea : EvaluationArguments) (ta : TrainingArguments)
    (env : Env) (h : ea.eval_tasks = []) :
    main ea ta env =
      ([], Except.error (RunError.valueError "Must provide at least one eval task!")) := by
  simp [main, validateArgs, h]

theorem empty_tasks_fails_witness :
    eaEmpty.eval_tasks = [] ∧
    main eaEmpty taA envA =
      ([], Except.error (RunError.valueError "Must provide at least one eval task!")) :=
  ⟨rfl, empty_tasks_fails eaEmpty taA envA rfl⟩

/-- C2: for every configuration requesting `jigsaw_toxicity_pred` whose
`data_dir` is `None` or names a path that does not exist, the run raises a
fatal validation error with an empty trace, so no model or tokenizer
loading is attempted. -/
theorem jigsaw_missing_data_fails (ea : EvaluationArguments)
    (ta : TrainingArguments) (env : Env)
    (h : jigsawTask ∈ ea.eval_tasks)
    (h2 : ea.data_dir = none ∨ ∃ d, ea.data_dir = some d ∧ env.fs_exists d = false) :
    (main ea ta env).1 = [] ∧
    ∃ msg, (main ea ta env).2 = Except.error (RunError.valueError msg) := by
  have hne : ea.eval_tasks ≠ [] := List.ne_nil_of_mem h
  have h0 : ea.eval_tasks.isEmpty = false := by
    cases hts : ea.eval_tasks with
    | nil => exact absurd hts hne
    | cons a l => rfl
  have hval : ∃ msg, validateArgs ea env.fs_exists =
      Except.error (RunError.valueError msg) := by
    rcases h2 with hd | ⟨d, hd, hfs⟩
    · exact ⟨"Must provide data path for jigsaw_toxicity_pred. Data needs to be downloaded manually from Kaggle and saved into a local directory.",
        by simp [validateArgs, h0, h, hd]⟩
    · exact ⟨"Data path for jigsaw_toxicity_pred does not exist. Data needs to be downloaded manually from Kaggle and saved into a local directory.",
        by simp [validateArgs, h0, h, hd, hfs]⟩
  obtain ⟨msg, hmsg⟩ := hval
  exact ⟨by simp [main, hmsg], msg, by simp [main, hmsg]⟩

theorem jigsaw_missing_data_fails_witness :
    jigsawTask ∈ eaJigsaw.eval_tasks ∧ eaJigsaw.data_dir = none ∧
    ((main eaJigsaw taA envA).1 = [] ∧
      ∃ msg, (main eaJigsaw taA envA).2 = Except.error (RunError.valueError msg)) :=
  ⟨by decide, rfl,
   jigsaw_missing_data_fails eaJigsaw taA envA (by decide) (Or.inl rfl)⟩

/-! ### Dispatch-loop lemmas -/

/-- A fully successful loop runs each task's four steps in listed order. -/
theorem runTasks_all_ok (env : Env) (ctx : DispatchCtx) (ts : List String)
    (h : ∀ t ∈ ts, env.resolve_ok t = true ∧ env.evaluate_ok t = true ∧
      env.save_ok t = true) :
    runTasks env ctx ts = (ts.flatMap (taskEvents ctx), Except.ok ()) := by
  induction ts with
  | nil => simp [runTasks]
  | cons t ts ih =>
    obtain ⟨h1, h2, h3⟩ := h t (by simp)
    have ih2 := ih (fun u hu => h u (by simp [hu]))
    simp [runTasks, runTask, h1, h2, h3, ih2]

/-- C3: for every run that passes validation and in which every requested
task's registry lookup, evaluation and metric saving succeed, `main`
performs model and tokenizer loading, creates the output directory, and
then processes the tasks strictly sequentially in listed order, each task
contributing exactly the four steps: registry resolution (with the shared
model, tokenizer, device, english_only flag and data_dir), a seed reset,
evaluation, and metric saving into the shared output directory. -/
theorem dispatch_sequential (ea : EvaluationArguments) (ta : TrainingArguments)
    (env : Env)
    (hv : validateArgs ea env.fs_exists = Except.ok ())
    (hok : ∀ t ∈ ea.eval_tasks, env.resolve_ok t = true ∧
      env.evaluate_ok t = true ∧ env.save_ok t = true) :
    main ea ta env =
      ((loadModelAndTokenizer ea ta.device env).events
        ++ [Event.makedirs (outputDir ea ta env)]
        ++ ea.eval_tasks.flatMap (taskEvents (mainCtx ea ta env)),
       Except.ok { tokenizer := (loadModelAndTokenizer ea ta.device env).tokenizer
                   model := (loadModelAndTokenizer ea ta.device env).model
                   output_dir := outputDir ea ta env }) := by
  have hrt := runTasks_all_ok env (mainCtx ea ta env) ea.eval_tasks hok
  simp [main, hv, os_makedirs, hrt]

/-- The two-task end-to-end configuration from the spec scenario. -/
def eaRun : EvaluationArguments :=
  { model_name_or_path := "gpt2", eval_tasks := ["task_a", "task_b"], tag := some "run1" }

/-- The tokenizer state `envA` yields for "gpt2" after the loading block. -/
def tokG : Tokenizer :=
  { name := "gpt2", eos_token := "</s>", eos_token_id := 2, pad_token := some "</s>",
    pad_token_id := some 2, padding_side := "left", length := 32000 }

/-- The model state `envA` yields for "gpt2" after the loading block. -/
def mG : Model :=
  { name := "gpt2", model_type := ModelType.causal, config_eos_token_id := 2,
    config_pad_token_id := some (Sum.inr 2), embedding_size := 32000,
    device := some "cpu" }

theorem dispatch_sequential_witness :
    validateArgs eaRun envA.fs_exists = Except.ok () ∧
    (∀ t ∈ eaRun.eval_tasks, envA.resolve_ok t = true ∧
      envA.evaluate_ok t = true ∧ envA.save_ok t = true) ∧
    (main eaRun taA envA).1 =
      [Event.loadTokenizer "gpt2", Event.loadModel ModelType.causal "gpt2",
       Event.makedirs "/tmp/out/run1",
       Event.resolveTask "task_a" mG tokG "cpu" true none, Event.setSeed 42,
       Event.evaluateTask "task_a", Event.saveMetrics "task_a" "/tmp/out/run1",
       Event.resolveTask "task_b" mG tokG "cpu" true none, Event.setSeed 42,
       Event.evaluateTask "task_b", Event.saveMetrics "task_b" "/tmp/out/run1"] := by
  have h := dispatch_sequential eaRun taA envA (by rfl) (by decide)
  refine ⟨by rfl, by decide, ?_⟩
  rw [h]
  rfl

/-! ### Seed discipline -/

/-- Every `evaluateTask` event in the list is immediately preceded by a
`setSeed seed` event. -/
def EvalSeeded (seed : Nat) (l : List Event) : Prop :=
  ∀ pre t post, l = pre ++ Event.evaluateTask t :: post →
    ∃ pre2, pre = pre2 ++ [Event.setSeed seed]

theorem evalSeeded_of_no_eval {seed : Nat} {l : List Event}
    (h : ∀ t, Event.evaluateTask t ∉ l) : EvalSeeded seed l := by
  intro pre t post hsplit
  exact absurd (by rw [hsplit]; simp) (h t)

theorem evalSeeded_append {seed : Nat} {l1 l2 : List Event}
    (h1 : EvalSeeded seed l1) (h2 : EvalSeeded seed l2) :
    EvalSeeded seed (l1 ++ l2) := by
  intro pre t post hsplit
  rcases List.append_eq_append_iff.mp hsplit with ⟨a, ha1, ha2⟩ | ⟨c, hc1, hc2⟩
  · obtain ⟨pre2, hpre2⟩ := h2 a t post ha2
    exact ⟨l1 ++ pre2, by rw [ha1, hpre2, List.append_assoc]⟩
  · cases c with
    | nil =>
      obtain ⟨pre2, hpre2⟩ := h2 [] t post (by simpa using hc2.symm)
      simp at hpre2
    | cons e c =>
      have he : e = Event.evaluateTask t := by
        have := hc2.symm
        simp at this
        exact this.1
      obtain ⟨pre2, hpre2⟩ := h1 pre t c (by rw [hc1, he])
      exact ⟨pre2, hpre2⟩

theorem evalSeeded_block3 (seed : Nat) (r : Event) (t : String)
    (hr : ∀ u, r ≠ Event.evaluateTask u) :
    EvalSeeded seed [r, Event.setSeed seed, Event.evaluateTask t] := by
  intro pre u post h
  rcases pre with _ | ⟨a, _ | ⟨b, _ | ⟨c, rest⟩⟩⟩
  · simp at h
    exact absurd h.1 (hr u)
  · simp at h
  · simp at h
    exact ⟨[a], by simp [h.1, h.2.1]⟩
  · simp at h

theorem evalSeeded_block4 (seed : Nat) (r sv : Event) (t : String)
    (hr : ∀ u, r ≠ Event.evaluateTask u) (hs : ∀ u, sv ≠ Event.evaluateTask u) :
    EvalSeeded seed [r, Event.setSeed seed, Event.evaluateTask t, sv] := by
  intro pre u post h
  rcases pre with _ | ⟨a, _ | ⟨b, _ | ⟨c, _ | ⟨d, rest⟩⟩⟩⟩
  · simp at h
    exact absurd h.1 (hr u)
  · simp at h
  · simp at h
    exact ⟨[a], by simp [h.1, h.2.1]⟩
  · simp at h
    exact absurd h.2.2.2.1 (hs u)
  · simp at h

theorem runTask_evalSeeded (env : Env) (ctx : DispatchCtx) (t : String) :
    EvalSeeded ctx.seed (runTask env ctx t).1 := by
  unfold runTask
  split_ifs with hA hB hC
  · exact evalSeeded_of_no_eval (by intro u; simp)
  · exact evalSeeded_block3 ctx.seed _ t (by intro u; simp)
  · exact evalSeeded_block4 ctx.seed _ _ t (by intro u; simp) (by intro u; simp)
  · exact evalSeeded_block4 ctx.seed _ _ t (by intro u; simp) (by intro u; simp)

theorem runTasks_evalSeeded (env : Env) (ctx : DispatchCtx) (ts : List String) :
    EvalSeeded ctx.seed (runTasks env ctx ts).1 := by
  induction ts with
  | nil =>
    intro pre t post h
    simp [runTasks] at h
  | cons t ts ih =>
    have hrt := runTask_evalSeeded env ctx t
    cases hq : runTask env ctx t with
    | mk evs r =>
      rw [hq] at hrt
      cases r with
      | error e => simpa [runTasks, hq] using hrt
      | ok u =>
        have : (runTasks env ctx (t :: ts)).1 = evs ++ (runTasks env ctx ts).1 := by
          simp [runTasks, hq]
        rw [this]
        exact evalSeeded_append hrt ih

/-- C4: in every run, every `evaluateTask` event in the trace is
immediately preceded by a `setSeed` event carrying the run's configured
seed, so each task's stochastic behavior is decoupled from its position in
the task list and from earlier tasks' consumption of randomness. -/
theorem seed_reset_before_each_eval (ea : EvaluationArguments)
    (ta : TrainingArguments) (env : Env) :
    EvalSeeded ta.seed (main ea ta env).1 := by
  unfold main
  cases hv : validateArgs ea env.fs_exists with
  | error e =>
    intro pre t post h
    simp at h
  | ok u =>
    have hpre : EvalSeeded ta.seed
        ((loadModelAndTokenizer ea ta.device env).events
          ++ [Event.makedirs (outputDir ea ta env)]) := by
      apply evalSeeded_of_no_eval
      intro t
      simp [loadModelAndTokenizer]
    have hloop := runTasks_evalSeeded env (mainCtx ea ta env) ea.eval_tasks
    have hseed : (mainCtx ea ta env).seed = ta.seed := rfl
    rw [hseed] at hloop
    cases hq : runTasks env (mainCtx ea ta env) ea.eval_tasks with
    | mk tevs r =>
      rw [hq] at hloop
      cases r with
      | error e =>
        simpa [os_makedirs, hq, List.append_assoc] using evalSeeded_append hpre hloop
      | ok v =>
        simpa [os_makedirs, hq, List.append_assoc] using evalSeeded_append hpre hloop

/-! ### Trace membership helpers -/

/-- Events produced inside the dispatch loop. -/
def isTaskEvent : Event → Bool
  | Event.resolveTask _ _ _ _ _ _ => true
  | Event.setSeed _ => true
  | Event.evaluateTask _ => true
  | Event.saveMetrics _ _ => true
  | _ => false

/-- Directory-creation events. -/
def isMakedirs : Event → Bool
  | Event.makedirs _ => true
  | _ => false

theorem runTask_mem_taskEvents (env : Env) (ctx : DispatchCtx) (t : String) :
    ∀ e ∈ (runTask env ctx t).1, e ∈ taskEvents ctx t := by
  intro e he
  unfold runTask at he
  split_ifs at he <;> simp [taskEvents] at he ⊢ <;> tauto

theorem runTasks_mem (env : Env) (ctx : DispatchCtx) (ts : List String) :
    ∀ e ∈ (runTasks env ctx ts).1, ∃ t ∈ ts, e ∈ taskEvents ctx t := by
  induction ts with
  | nil => simp [runTasks]
  | cons t ts ih =>
    intro e he
    cases hq : runTask env ctx t with
    | mk evs r =>
      have hm : ∀ x ∈ evs, x ∈ taskEvents ctx t := by
        intro x hx
        exact runTask_mem_taskEvents env ctx t x (by rw [hq]; exact hx)
      cases r with
      | error err =>
        rw [runTasks, hq] at he
        exact ⟨t, by simp, hm e he⟩
      | ok u =>
        rw [runTasks, hq] at he
        simp only [List.mem_append] at he
        rcases he with he | he
        · exact ⟨t, by simp, hm e he⟩
        · obtain ⟨u2, hu2, he2⟩ := ih e he
          exact ⟨u2, by simp [hu2], he2⟩

theorem mem_taskEvents_cases {ctx : DispatchCtx} {t : String} {e : Event}
    (h : e ∈ taskEvents ctx t) :
    e = Event.resolveTask t ctx.model ctx.tokenizer ctx.device ctx.english_only
      ctx.data_dir ∨
    e = Event.setSeed ctx.seed ∨ e = Event.evaluateTask t ∨
    e = Event.saveMetrics t ctx.output_dir := by
  simp [taskEvents] at h
  tauto

/-- Characterization of the events that can appear in a `main` trace. -/
theorem main_mem (ea : EvaluationArguments) (ta : TrainingArguments) (env : Env)
    (e : Event) (he : e ∈ (main ea ta env).1) :
    e = Event.loadTokenizer (py_or_str ea.tokenizer_name ea.model_name_or_path) ∨
    (∃ ty, e = Event.loadModel ty ea.model_name_or_path) ∨
    e = Event.makedirs (outputDir ea ta env) ∨
    ∃ t ∈ ea.eval_tasks, e ∈ taskEvents (mainCtx ea ta env) t := by
  unfold main at he
  cases hv : validateArgs ea env.fs_exists with
  | error err => rw [hv] at he; simp at he
  | ok u =>
    rw [hv] at he
    cases hq : runTasks env (mainCtx ea ta env) ea.eval_tasks with
    | mk tevs r =>
      have hm : ∀ x ∈ tevs, ∃ t ∈ ea.eval_tasks, x ∈ taskEvents (mainCtx ea ta env) t := by
        intro x hx
        exact runTasks_mem env (mainCtx ea ta env) ea.eval_tasks x (by rw [hq]; exact hx)
      cases r with
      | error err =>
        simp only [os_makedirs, hq] at he
        simp [loadModelAndTokenizer] at he
        rcases he with he | he | he | he
        · exact Or.inl (by rw [he])
        · exact Or.inr (Or.inl ⟨_, by rw [he]⟩)
        · exact Or.inr (Or.inr (Or.inl (by rw [he])))
        · exact Or.inr (Or.inr (Or.inr (hm e he)))
      | ok v =>
        simp only [os_makedirs, hq] at he
        simp [loadModelAndTokenizer] at he
        rcases he with he | he | he | he
        · exact Or.inl (by rw [he])
        · exact Or.inr (Or.inl ⟨_, by rw [he]⟩)
        · exact Or.inr (Or.inr (Or.inl (by rw [he])))
        · exact Or.inr (Or.inr (Or.inr (hm e he)))

/-- A configuration that supplies the empty string as tag. -/
def eaEmptyTag : EvaluationArguments :=
  { model_name_or_path := "gpt2", eval_tasks := ["task_a"], tag := some "" }

/-- C5 counterexample: the tag `""` is supplied, yet the run creates the
timestamp-named directory rather than `<output_dir>/<tag>` with the tag
used verbatim, because `eval_args.tag or timestamp` treats the empty
string as absent. -/
theorem tag_verbatim_counterexample :
    eaEmptyTag.tag = some "" ∧
    Event.makedirs (os_path_join taA.output_dir "") ∉ (main eaEmptyTag taA envA).1 ∧
    Event.makedirs (os_path_join taA.output_dir envA.now_tag) ∈
      (main eaEmptyTag taA envA).1 ∧
    os_path_join taA.output_dir "" ≠ os_path_join taA.output_dir envA.now_tag :=
  ⟨rfl, by decide, by decide, by decide⟩

/-- C5 (amended): the output directory equals `<output_dir>/<tag>` where
the tag is the supplied tag argument used verbatim when it is present and
non-empty, and a timestamp string otherwise; the directory is created
exactly once, before any task event, and creation uses `exist_ok`, so an
already-existing directory never raises. -/
theorem output_dir_spec (ea : EvaluationArguments) (ta : TrainingArguments)
    (env : Env) (hv : validateArgs ea env.fs_exists = Except.ok ()) :
    (resolvedTag ea env = match ea.tag with
       | some s => if s = "" then env.now_tag else s
       | none => env.now_tag) ∧
    outputDir ea ta env = os_path_join ta.output_dir (resolvedTag ea env) ∧
    (∃ pre post,
      (main ea ta env).1 = pre ++ Event.makedirs (outputDir ea ta env) :: post ∧
      (∀ e ∈ pre, isTaskEvent e = false) ∧
      (∀ e ∈ pre, isMakedirs e = false) ∧
      (∀ e ∈ post, isMakedirs e = false)) ∧
    (∀ fs : String → Bool, os_makedirs (outputDir ea ta env) true fs = Except.ok ()) := by
  refine ⟨?_, rfl, ?_, by intro fs; simp [os_makedirs]⟩
  · cases htag : ea.tag with
    | none => simp [resolvedTag, py_or_str, htag]
    | some s => simp [resolvedTag, py_or_str, htag]
  cases hq : runTasks env (mainCtx ea ta env) ea.eval_tasks with
  | mk tevs r =>
    have hpost : ∀ e ∈ tevs, isMakedirs e = false := by
      intro e hee
      obtain ⟨t, ht, hte⟩ := runTasks_mem env (mainCtx ea ta env) ea.eval_tasks e
        (by rw [hq]; exact hee)
      rcases mem_taskEvents_cases hte with h | h | h | h <;> simp [h, isMakedirs]
    refine ⟨(loadModelAndTokenizer ea ta.device env).events, tevs, ?_, ?_, ?_, hpost⟩
    · cases r with
      | error e => simp [main, hv, os_makedirs, hq]
      | ok v => simp [main, hv, os_makedirs, hq]
    · intro e hee
      simp [loadModelAndTokenizer] at hee
      rcases hee with h | h <;> simp [h, isTaskEvent]
    · intro e hee
      simp [loadModelAndTokenizer] at hee
      rcases hee with h | h <;> simp [h, isMakedirs]

theorem output_dir_spec_witness :
    validateArgs eaRun envA.fs_exists = Except.ok () ∧
    outputDir eaRun taA envA = "/tmp/out/run1" ∧
    (∃ pre post,
      (main eaRun taA envA).1 = pre ++ Event.makedirs (outputDir eaRun taA envA) :: post ∧
      (∀ e ∈ pre, isTaskEvent e = false) ∧
      (∀ e ∈ pre, isMakedirs e = false) ∧
      (∀ e ∈ post, isMakedirs e = false)) ∧
    (∀ fs : String → Bool, os_makedirs (outputDir eaRun taA envA) true fs = Except.ok ()) := by
  have h := output_dir_spec eaRun taA envA (by rfl)
  exact ⟨by rfl, by decide, h.2.2.1, h.2.2.2⟩

/-- C6: for every configuration, whatever the model identifier, the
loading block sets the tokenizer's pad token to its end-of-sequence token
(and its pad token id to the eos token id) and sets the padding side to
left. -/
theorem tokenizer_pad_and_side (ea : EvaluationArguments) (device : String)
    (env : Env) :
    (loadModelAndTokenizer ea device env).tokenizer.pad_token =
      some (loadModelAndTokenizer ea device env).tokenizer.eos_token ∧
    (loadModelAndTokenizer ea device env).tokenizer.pad_token_id =
      some (loadModelAndTokenizer ea device env).tokenizer.eos_token_id ∧
    (loadModelAndTokenizer ea device env).tokenizer.padding_side = "left" :=
  ⟨rfl, rfl, rfl⟩

/-- C7: identifiers on the hard-coded allowlist ("bigscience/T0_3B",
"bigscience/T0") select the sequence-to-sequence model type; every other
identifier selects the causal model type. -/
theorem model_type_selection (ea : EvaluationArguments) (device : String)
    (env : Env) :
    ((ea.model_name_or_path = "bigscience/T0_3B" ∨
        ea.model_name_or_path = "bigscience/T0") →
      (loadModelAndTokenizer ea device env).model.model_type = ModelType.seq2seq) ∧
    ((ea.model_name_or_path ≠ "bigscience/T0_3B" ∧
        ea.model_name_or_path ≠ "bigscience/T0") →
      (loadModelAndTokenizer ea device env).model.model_type = ModelType.causal) := by
  constructor
  · intro h
    have hm : ea.model_name_or_path ∈ seq2seq_allowlist := by
      simp [seq2seq_allowlist]
      tauto
    simp [loadModelAndTokenizer, hm]
  · intro h
    have hm : ea.model_name_or_path ∉ seq2seq_allowlist := by
      simp [seq2seq_allowlist]
      tauto
    simp [loadModelAndTokenizer, hm]

/-- A configuration naming an allowlisted model. -/
def eaT0 : EvaluationArguments :=
  { model_name_or_path := "bigscience/T0", eval_tasks := ["task_a"] }

theorem model_type_selection_witness :
    (loadModelAndTokenizer eaT0 "cpu" envA).model.model_type = ModelType.seq2seq ∧
    (loadModelAndTokenizer eaRun "cpu" envA).model.model_type = ModelType.causal :=
  ⟨(model_type_selection eaT0 "cpu" envA).1 (Or.inr rfl),
   (model_type_selection eaRun "cpu" envA).2 ⟨by decide, by decide⟩⟩

/-- A configuration whose tokenizer is loaded from a different identifier
than the model. -/
def eaTokOverride : EvaluationArguments :=
  { model_name_or_path := "gpt2", eval_tasks := ["task_a"],
    tokenizer_name := some "other-tokenizer" }

/-- An environment in which the overriding tokenizer's token ids differ
from the model's. -/
def envMismatch : Env :=
  { envA with
    tok_eos_token_id := fun _ => 2
    model_eos_token_id := fun _ => 50256 }

/-- C8 counterexample: after loading, the model's pad token id is the
model's own eos token id (50256 here), while the tokenizer's pad token is
its eos token "</s>" with id 2, so the model's padding-token configuration
does not equal the tokenizer's padding token. -/
theorem model_pad_alignment_counterexample :
    (loadModelAndTokenizer eaTokOverride "cpu" envMismatch).tokenizer.pad_token_id =
      some 2 ∧
    (loadModelAndTokenizer eaTokOverride "cpu" envMismatch).model.config_pad_token_id =
      some (Sum.inr 50256) ∧
    (loadModelAndTokenizer eaTokOverride "cpu" envMismatch).model.config_pad_token_id ≠
      Option.map Sum.inr
        (loadModelAndTokenizer eaTokOverride "cpu" envMismatch).tokenizer.pad_token_id ∧
    (loadModelAndTokenizer eaTokOverride "cpu" envMismatch).model.config_pad_token_id ≠
      Option.map Sum.inl
        (loadModelAndTokenizer eaTokOverride "cpu" envMismatch).tokenizer.pad_token :=
  ⟨rfl, rfl, by decide, by decide⟩

/-- C8 (amended): after loading, the model's pad token id is set to the
model's own end-of-sequence token id (which coincides with the tokenizer's
padding token only when their eos ids agree), the model's input embeddings
are resized to the tokenizer's vocabulary size, and the model is moved to
the target device. -/
theorem model_pad_is_model_eos (ea : EvaluationArguments) (device : String)
    (env : Env) :
    (loadModelAndTokenizer ea device env).model.config_pad_token_id =
      some (Sum.inr (loadModelAndTokenizer ea device env).model.config_eos_token_id) ∧
    (loadModelAndTokenizer ea device env).model.embedding_size =
      (loadModelAndTokenizer ea device env).tokenizer.length ∧
    (loadModelAndTokenizer ea device env).model.device = some device :=
  ⟨rfl, rfl, rfl⟩

/-! ### Failure propagation -/

theorem runTasks_append_ok (env : Env) (ctx : DispatchCtx)
    (ts1 rest : List String)
    (h : ∀ u ∈ ts1, env.resolve_ok u = true ∧ env.evaluate_ok u = true ∧
      env.save_ok u = true) :
    runTasks env ctx (ts1 ++ rest) =
      (ts1.flatMap (taskEvents ctx) ++ (runTasks env ctx rest).1,
       (runTasks env ctx rest).2) := by
  induction ts1 with
  | nil => simp [runTasks]
  | cons t ts ih =>
    obtain ⟨h1, h2, h3⟩ := h t (by simp)
    have ih2 := ih (fun u hu => h u (by simp [hu]))
    simp [runTasks, runTask, h1, h2, h3, ih2]

theorem runTask_fails (env : Env) (ctx : DispatchCtx) (t : String)
    (hf : ¬(env.resolve_ok t = true ∧ env.evaluate_ok t = true ∧
      env.save_ok t = true)) :
    ∃ e, (runTask env ctx t).2 = Except.error e := by
  unfold runTask
  split_ifs with hA hB hC
  · exact ⟨_, rfl⟩
  · exact ⟨_, rfl⟩
  · exact ⟨_, rfl⟩
  · exact absurd ⟨by simpa using hA, by simpa using hB, by simpa using hC⟩ hf

/-- C9: if every task before position i succeeds and task i's resolution,
evaluation or metric saving raises, the exception propagates uncaught out
of `main` and the trace ends with task i's partial events: no event of any
later task (resolution, seeding, evaluation or saving) occurs. -/
theorem task_failure_aborts (ea : EvaluationArguments) (ta : TrainingArguments)
    (env : Env) (ts1 : List String) (t : String) (ts2 : List String)
    (hv : validateArgs ea env.fs_exists = Except.ok ())
    (hsplit : ea.eval_tasks = ts1 ++ t :: ts2)
    (hok : ∀ u ∈ ts1, env.resolve_ok u = true ∧ env.evaluate_ok u = true ∧
      env.save_ok u = true)
    (hf : ¬(env.resolve_ok t = true ∧ env.evaluate_ok t = true ∧
      env.save_ok t = true)) :
    ∃ e, (runTask env (mainCtx ea ta env) t).2 = Except.error e ∧
      (main ea ta env).2 = Except.error e ∧
      (main ea ta env).1 =
        (loadModelAndTokenizer ea ta.device env).events
        ++ [Event.makedirs (outputDir ea ta env)]
        ++ ts1.flatMap (taskEvents (mainCtx ea ta env))
        ++ (runTask env (mainCtx ea ta env) t).1 := by
  obtain ⟨e, he⟩ := runTask_fails env (mainCtx ea ta env) t hf
  have hrt : runTasks env (mainCtx ea ta env) (t :: ts2) =
      ((runTask env (mainCtx ea ta env) t).1, Except.error e) := by
    rw [runTasks]
    cases hq : runTask env (mainCtx ea ta env) t with
    | mk evs r =>
      have he2 : r = Except.error e := by rw [hq] at he; exact he
      subst he2
      simp
  have hall : runTasks env (mainCtx ea ta env) ea.eval_tasks =
      (ts1.flatMap (taskEvents (mainCtx ea ta env))
        ++ (runTask env (mainCtx ea ta env) t).1,
       Except.error e) := by
    rw [hsplit, runTasks_append_ok env _ ts1 (t :: ts2) hok, hrt]
  refine ⟨e, he, ?_, ?_⟩
  · simp [main, hv, os_makedirs, hall]
  · simp [main, hv, os_makedirs, hall]

/-- An environment in which only `task_b` fails (its `evaluate()` raises). -/
def envFailB : Env := { envA with evaluate_ok := fun s => !(s == "task_b") }

/-- A three-task configuration whose middle task will fail. -/
def eaABC : EvaluationArguments :=
  { model_name_or_path := "gpt2", eval_tasks := ["task_a", "task_b", "task_c"],
    tag := some "run1" }

theorem task_failure_aborts_witness :
    validateArgs eaABC envFailB.fs_exists = Except.ok () ∧
    eaABC.eval_tasks = ["task_a"] ++ "task_b" :: ["task_c"] ∧
    (∃ e, (runTask envFailB (mainCtx eaABC taA envFailB) "task_b").2 =
        Except.error e ∧
      (main eaABC taA envFailB).2 = Except.error e ∧
      (main eaABC taA envFailB).1 =
        (loadModelAndTokenizer eaABC taA.device envFailB).events
        ++ [Event.makedirs (outputDir eaABC taA envFailB)]
        ++ ["task_a"].flatMap (taskEvents (mainCtx eaABC taA envFailB))
        ++ (runTask envFailB (mainCtx eaABC taA envFailB) "task_b").1) :=
  ⟨by rfl, rfl,
   task_failure_aborts eaABC taA envFailB ["task_a"] "task_b" ["task_c"]
     (by rfl) rfl (by decide) (by decide)⟩

/-- C10: when `jigsaw_toxicity_pred` is not among the requested tasks, the
data directory is never validated — validation succeeds whatever
`data_dir` holds and whatever exists on disk — and every registry
resolution in the trace receives `data_dir` unchanged. -/
theorem data_dir_unvalidated (ea : EvaluationArguments) (ta : TrainingArguments)
    (env : Env)
    (hne : ea.eval_tasks ≠ [])
    (hj : jigsawTask ∉ ea.eval_tasks) :
    validateArgs ea env.fs_exists = Except.ok () ∧
    ∀ e ∈ (main ea ta env).1, ∀ t m tok d eo dd,
      e = Event.resolveTask t m tok d eo dd → dd = ea.data_dir := by
  have h0 : ea.eval_tasks.isEmpty = false := by
    cases hts : ea.eval_tasks with
    | nil => exact absurd hts hne
    | cons a l => rfl
  constructor
  · simp [validateArgs, h0, hj]
  · intro e he t m tok d eo dd hdd
    rcases main_mem ea ta env e he with h | ⟨ty, h⟩ | h | ⟨u, hu, hte⟩
    · rw [h] at hdd; simp at hdd
    · rw [h] at hdd; simp at hdd
    · rw [h] at hdd; simp at hdd
    · rcases mem_taskEvents_cases hte with h | h | h | h
      · rw [h] at hdd
        simp at hdd
        rw [← hdd.2.2.2.2.2]
        rfl
      · rw [h] at hdd; simp at hdd
      · rw [h] at hdd; simp at hdd
      · rw [h] at hdd; simp at hdd

theorem data_dir_unvalidated_witness :
    eaRun.eval_tasks ≠ [] ∧ jigsawTask ∉ eaRun.eval_tasks ∧
    eaRun.data_dir = none ∧
    (validateArgs eaRun envA.fs_exists = Except.ok () ∧
      ∀ e ∈ (main eaRun taA envA).1, ∀ t m tok d eo dd,
        e = Event.resolveTask t m tok d eo dd → dd = eaRun.data_dir) :=
  ⟨by decide, by decide, rfl, data_dir_unvalidated eaRun taA envA (by decide) (by decide)⟩

end Eval
